import Mathlib

/-!
Shallow embedding of `src/lightshow.py` (an audio-reactive RGB LED driver).

Python floats are modelled as exact rationals (`ℚ`); the external numeric
library routines `np.hanning` / `np.fft.rfft` are floating-point collaborators,
so the magnitude spectrum `np.abs(np.fft.rfft(windowed))` (a list of length
`⌊n/2⌋ + 1` for an `n`-sample block) is passed to the per-block handler as an
oracle parameter.  Everything downstream of it is translated operation by
operation from the source.
-/

attribute [local semireducible] Rat.mul Rat.add Rat.sub Rat.inv

namespace Lightshow

/-- Broadcom pin numbers (source lines 53-55). -/
def RED_PIN : ℕ := 16

/-- Broadcom pin number of the green channel. -/
def GREEN_PIN : ℕ := 20

/-- Broadcom pin number of the blue channel. -/
def BLUE_PIN : ℕ := 21

/-- `setLights(pin, brightness)` (source lines 64-67): a duty above 255 is
rejected (the function returns without calling the actuator); otherwise the
call `pi.set_PWM_dutycycle(pin, brightness)` is performed.  The performed call
is modelled as `some (pin, duty)`, the rejected one as `none`. -/
def setLights (pin : ℕ) (brightness : ℚ) : Option (ℕ × ℚ) :=
  if brightness > 255 then none
  else some (pin, brightness)

/-- `reset_lights()` (source lines 69-72): the list of actuator calls it
performs. -/
def reset_lights : List (ℕ × ℚ) :=
  [setLights RED_PIN 0, setLights GREEN_PIN 0, setLights BLUE_PIN 0].filterMap id

/-- `bounded(x, l, h) = max(l, min(h, x))` (source lines 74-75). -/
def bounded (x l h : ℚ) : ℚ :=
  max l (min h x)

/-- `np.percentile(a, q)` with the default linear interpolation: sort
ascending, take the virtual index `h = (n-1)·q/100`, and interpolate between
the neighbouring entries. -/
def percentile (l : List ℚ) (q : ℚ) : ℚ :=
  let s := l.insertionSort (fun a b => a ≤ b)
  let n := s.length
  let h : ℚ := ((n : ℚ) - 1) * q / 100
  let i : ℕ := h.floor.toNat
  let lo := s.getD i 0
  let hi := s.getD (i + 1) lo
  lo + (h - (i : ℚ)) * (hi - lo)

/-- `normalize(val, prev_vals, margin)` (source lines 77-81). -/
def normalize (val : ℚ) (prev_vals : List ℚ) (margin : ℚ) : ℚ :=
  let val_max := percentile prev_vals (100 - margin)
  let val_min := percentile prev_vals (margin * 2)
  let val_normed := (val - val_min) / max (1 / 1000000000) (val_max - val_min)
  bounded val_normed 0 1

/-- `curved_norm(val, prev_vals, margin)` (source lines 83-85). -/
def curved_norm (val : ℚ) (prev_vals : List ℚ) (margin : ℚ) : ℚ :=
  bounded ((normalize val prev_vals margin + 1 / 10) ^ 6) 0 1

/-- `updateColor(color, step)` (source lines 100-108): add the step and clamp
to `[0, 255]`. -/
def updateColor (color step : Int) : Int :=
  let c := color + step
  if c > 255 then 255
  else if c < 0 then 0
  else c

/-- The global colour triple `(r, g, b)` mutated by `fadeStep`. -/
structure ColorState where
  r : Int
  g : Int
  b : Int
deriving DecidableEq

/-- `fadeStep(steps)` (source lines 110-129): six mutually exclusive guards on
the pinned channels decide which channel ramps, by `steps`, via
`updateColor`. -/
def fadeStep (steps : Int) (s : ColorState) : ColorState :=
  if s.r = 255 ∧ s.b = 0 ∧ s.g < 255 then
    { s with g := updateColor s.g steps }
  else if s.g = 255 ∧ s.b = 0 ∧ s.r > 0 then
    { s with r := updateColor s.r (-steps) }
  else if s.r = 0 ∧ s.g = 255 ∧ s.b < 255 then
    { s with b := updateColor s.b steps }
  else if s.r = 0 ∧ s.b = 255 ∧ s.g > 0 then
    { s with g := updateColor s.g (-steps) }
  else if s.g = 0 ∧ s.b = 255 ∧ s.r < 255 then
    { s with r := updateColor s.r steps }
  else if s.r = 255 ∧ s.g = 0 ∧ s.b > 0 then
    { s with b := updateColor s.b (-steps) }
  else s

/-- Iterating `fadeStep 1` over a number of block advances. -/
def fadeIter : ℕ → ColorState → ColorState
  | 0, s => s
  | n + 1, s => fadeIter n (fadeStep 1 s)

/-- A channel value lies in the admissible PWM range. -/
def chanInRange (c : Int) : Prop :=
  0 ≤ c ∧ c ≤ 255

/-- All three channels lie in `[0, 255]`. -/
def colorInRange (s : ColorState) : Prop :=
  chanInRange s.r ∧ chanInRange s.g ∧ chanInRange s.b

/-- Frequency of bin `i`: `np.fft.fftfreq(n, 1/samplerate)` yields
`i · samplerate / n` at every index `i < ⌊n/2⌋` kept by the slice
`freq[:int(len(freq)/2)]` (source lines 164, 167). -/
def freqOf (n : ℕ) (samplerate : ℚ) (i : ℕ) : ℚ :=
  (i : ℚ) * samplerate / n

/-- Indices selected by `np.where(np.logical_and(freq>=low, freq<high))`
(source line 168): bins `i < ⌊n/2⌋` whose centre frequency lies in
`[low, high)`. -/
def bandIndices (n : ℕ) (samplerate low high : ℚ) : List ℕ :=
  (List.range (n / 2)).filter
    (fun i => decide (low ≤ freqOf n samplerate i) && decide (freqOf n samplerate i < high))

/-- `amp = np.sum(spectrum[np.where(...)])` (source lines 166-171).
`spectrum` is the oracle for `np.abs(np.fft.rfft(windowed))`, of length
`⌊n/2⌋ + 1`; the slice `spectrum[:int(len(spectrum)/2)]` truncates it to
`(⌊n/2⌋ + 1) / 2` entries.  Two numpy exceptions can fire before `amp` is
computed, both modelled as `none`: fancy indexing with an index beyond the
truncated length raises `IndexError` (line 168), and the peak-frequency
expression `np.max(spectrum)` on line 169 raises `ValueError` when the
truncated spectrum is a zero-size array (blocks of at most one sample). -/
def bandSum (spectrum : List ℚ) (n : ℕ) (samplerate low high : ℚ) : Option ℚ :=
  let spec := spectrum.take ((n / 2 + 1) / 2)
  let idxs := bandIndices n samplerate low high
  if idxs.all (fun i => decide (i < spec.length)) then
    if spec.isEmpty then none
    else some ((idxs.map (fun i => spec.getD i 0)).sum)
  else none

/-- The sum claimed by the specification: the magnitudes of all bins of the
first half of the spectrum (indices `0 .. ⌊n/2⌋ - 1`) whose frequency lies in
`[low, high)`.  This definition follows the spec's words, to be compared with
`bandSum`, which follows the source. -/
def claimedBandSum (spectrum : List ℚ) (n : ℕ) (samplerate low high : ℚ) : ℚ :=
  ((bandIndices n samplerate low high).map (fun i => spectrum.getD i 0)).sum

/-- `noise_thresh = min(amp, noise_thresh)` (source line 173). -/
def noiseUpdate (noise amp : ℚ) : ℚ :=
  min amp noise

/-- `amp = max(1e-9, amp - noise_thresh)` (source line 174), applied after the
noise update. -/
def adjustAmp (noise amp : ℚ) : ℚ :=
  max (1 / 1000000000) (amp - noise)

/-- The noise threshold obtained after folding a sequence of raw block
amplitudes through `noiseUpdate`, starting from `init`. -/
def noiseAfter (init : ℚ) (amps : List ℚ) : ℚ :=
  amps.foldl noiseUpdate init

/-- Python `deque(init, maxlen)` keeps the last `maxlen` entries of `init`. -/
def dequeInit (maxlen : ℕ) (init : List ℚ) : List ℚ :=
  init.drop (init.length - maxlen)

/-- `deque.append(x)` on a deque with a `maxlen`: the oldest entry is evicted
once the capacity is reached. -/
def dequeAppend (maxlen : ℕ) (l : List ℚ) (x : ℚ) : List ℚ :=
  (l ++ [x]).drop (l.length + 1 - maxlen)

/-- Capacity of `prev_amps`: `int(norm_duration/args.block_duration)` with
`norm_duration = 10000` (source lines 146, 149); `int()` truncates, which for a
positive duration is the floor. -/
def capPrevOf (block_duration : ℚ) : ℕ :=
  ((10000 : ℚ) / block_duration).floor.toNat

/-- Capacity of `norm_amps`: `max(1, int(delay/args.block_duration))` with
`delay = 300` (source lines 147, 150). -/
def capNormOf (block_duration : ℚ) : ℕ :=
  max 1 ((300 : ℚ) / block_duration).floor.toNat

/-- `prev_amps = deque([1e-9], maxlen=int(norm_duration/args.block_duration))`
(source line 149). -/
def prev_amps_init (block_duration : ℚ) : List ℚ :=
  dequeInit (capPrevOf block_duration) [1 / 1000000000]

/-- `norm_amps = deque([], maxlen=max(1,int(delay/args.block_duration)))`
(source line 150). -/
def norm_amps_init (block_duration : ℚ) : List ℚ :=
  dequeInit (capNormOf block_duration) []

/-- `noise_thresh = 1e9` (source line 151). -/
def noise_thresh_init : ℚ := 1000000000

/-- Mean of a list of rationals (`0` on the empty list). -/
def listMean (l : List ℚ) : ℚ :=
  l.sum / l.length

/-- Population variance, `np.var`.  The source tests `np.std(prev_amps) < 1`
(line 179); since `np.std` is the non-negative square root of the variance and
`1 = 1²`, that test is equivalent to `variance < 1`, which is the form used
here so the embedding stays inside `ℚ`. -/
def listVar (l : List ℚ) : ℚ :=
  ((l.map (fun x => (x - listMean l) ^ 2)).sum) / l.length

/-- `np.average(norm_amps, weights=np.arange(1, len(norm_amps)+1))`
(source line 183): the weight of the `i`-th entry (1-indexed) is `i`. -/
def weightedAvg (l : List ℚ) : ℚ :=
  let w := (List.range l.length).map (fun i => ((i + 1 : ℕ) : ℚ))
  (List.zipWith (fun a b => a * b) w l).sum / w.sum

/-- Startup configuration derived from the command line (immutable during the
stream). -/
structure Config where
  fade : Bool
  low : ℚ
  high : ℚ
  samplerate : ℚ
  capPrev : ℕ
  capNorm : ℕ
deriving DecidableEq

/-- The process-wide mutable state read and written by the per-block handler:
the colour globals `r`, `g`, `b`, the two deques, the noise threshold and the
interactive gain factor `args.gain`. -/
structure PipelineState where
  r : Int
  g : Int
  b : Int
  prevAmps : List ℚ
  normAmps : List ℚ
  noiseThresh : ℚ
  gain : ℚ
deriving DecidableEq

/-- Observable effects of one invocation of the handler: the PWM calls
actually performed, whether `'no input'` was printed, and the length of the
dash bar `int(amp/10)*'-'` printed for a processed block. -/
structure BlockOutput where
  lightCalls : List (ℕ × ℚ)
  printedNoInput : Bool
  dashes : Option ℕ
deriving DecidableEq

/-- `fadeStep(1)` acting on the colour globals inside the pipeline state
(source line 155). -/
def applyFade (s : PipelineState) : PipelineState :=
  let c := fadeStep 1 ⟨s.r, s.g, s.b⟩
  { s with r := c.r, g := c.g, b := c.b }

/-- The body of the `if any(indata):` branch (source lines 161-189), given the
raw band amplitude `amp0` already extracted from the spectrum. -/
def processBlock (cfg : Config) (s0 : PipelineState) (amp0 : ℚ) :
    PipelineState × BlockOutput :=
  let noise := noiseUpdate s0.noiseThresh amp0
  let amp := adjustAmp noise amp0
  let prevAmps := dequeAppend cfg.capPrev s0.prevAmps amp
  let normAmps1 := dequeAppend cfg.capNorm s0.normAmps (curved_norm amp prevAmps 10)
  let normAmps := if listVar prevAmps < 1 then [0] else normAmps1
  let bright := weightedAvg normAmps
  let calls := [setLights RED_PIN ((s0.r : ℚ) * bright),
                setLights GREEN_PIN ((s0.g : ℚ) * bright),
                setLights BLUE_PIN ((s0.b : ℚ) * bright)].filterMap id
  ({ s0 with prevAmps := prevAmps, normAmps := normAmps, noiseThresh := noise },
   { lightCalls := calls, printedNoInput := false,
     dashes := some (amp / 10).floor.toNat })

/-- The handler body after the fade step: either the processing branch (with
`none` signalling the numpy `IndexError` of `bandSum`) or the `'no input'`
branch (source lines 160-191). -/
def callbackCore (cfg : Config) (indata spectrum : List ℚ) (s0 : PipelineState) :
    Option (PipelineState × BlockOutput) :=
  if indata.any (fun x => x != 0) then
    match bandSum spectrum indata.length cfg.samplerate cfg.low cfg.high with
    | none => none
    | some amp0 => some (processBlock cfg s0 amp0)
  else
    some (s0, { lightCalls := [], printedNoInput := true, dashes := none })

/-- `callback(indata, frames, time, status)` (source lines 153-191): run the
fade step when fade mode is active, then the handler body.  `spectrum` is the
oracle for the windowed magnitude spectrum of `indata`. -/
def callback (cfg : Config) (indata spectrum : List ℚ) (s : PipelineState) :
    Option (PipelineState × BlockOutput) :=
  callbackCore cfg indata spectrum (if cfg.fade then applyFade s else s)

/-- Replace the gain factor of a state (the effect of the interactive
`'+'`/`'-'` loop, source lines 201-205, which touches no other state). -/
def setGain (gv : ℚ) (s : PipelineState) : PipelineState :=
  { s with gain := gv }

/-- Fold the handler over a sequence of blocks (each block paired with its
spectrum oracle), collecting the per-block outputs. -/
def runBlocks (cfg : Config) : List (List ℚ × List ℚ) → PipelineState →
    Option (PipelineState × List BlockOutput)
  | [], s => some (s, [])
  | blk :: rest, s =>
    match callback cfg blk.1 blk.2 s with
    | none => none
    | some (s', out) =>
      match runBlocks cfg rest s' with
      | none => none
      | some (sf, outs) => some (sf, out :: outs)

/-- The observable outputs of a run. -/
def runOutputs (cfg : Config) (blocks : List (List ℚ × List ℚ))
    (s : PipelineState) : Option (List BlockOutput) :=
  (runBlocks cfg blocks s).map (fun p => p.2)

/-- Events of the top-level exit paths: a PWM actuator call or a
`parser.exit` (which raises `SystemExit`, terminating the process). -/
inductive Event where
  | pwmCall (pin : ℕ) (duty : ℚ)
  | exitMsg (msg : String)
deriving DecidableEq

/-- Statements appearing on the top-level exit paths (source lines 211-216). -/
inductive TopStmt where
  | callResetLights
  | parserExit (msg : String)

/-- Execute a statement list with Python semantics: `parser.exit` raises
`SystemExit`, so nothing after it runs. -/
def runTop : List TopStmt → List Event
  | [] => []
  | TopStmt.callResetLights :: rest =>
    reset_lights.map (fun c => Event.pwmCall c.1 c.2) ++ runTop rest
  | TopStmt.parserExit m :: _ => [Event.exitMsg m]

/-- The tail of the `try:` body after the stream closes on a normal quit
(source line 211). -/
def normalQuitTail : List TopStmt :=
  [TopStmt.callResetLights]

/-- The `except KeyboardInterrupt:` handler (source lines 212-214):
`parser.exit('Interrupted by user')` followed by `reset_lights()`. -/
def interruptHandlerBody : List TopStmt :=
  [TopStmt.parserExit "Interrupted by user", TopStmt.callResetLights]

/-- The `except Exception as e:` handler (source lines 215-216). -/
def exceptionHandlerBody (name msg : String) : List TopStmt :=
  [TopStmt.parserExit (name ++ ": " ++ msg)]

/-! ## Helper lemmas -/

theorem bounded_zero_one (x : ℚ) : 0 ≤ bounded x 0 1 ∧ bounded x 0 1 ≤ 1 := by
  unfold bounded
  exact ⟨le_max_left 0 _, max_le (by norm_num) (min_le_left 1 x)⟩

theorem updateColor_range (c st : Int) :
    0 ≤ updateColor c st ∧ updateColor c st ≤ 255 := by
  unfold updateColor
  dsimp only
  split
  · omega
  · split <;> omega

theorem fadeStep_range (steps : Int) (s : ColorState) (h : colorInRange s) :
    colorInRange (fadeStep steps s) := by
  unfold fadeStep
  split
  · exact ⟨h.1, updateColor_range _ _, h.2.2⟩
  · split
    · exact ⟨updateColor_range _ _, h.2.1, h.2.2⟩
    · split
      · exact ⟨h.1, h.2.1, updateColor_range _ _⟩
      · split
        · exact ⟨h.1, updateColor_range _ _, h.2.2⟩
        · split
          · exact ⟨updateColor_range _ _, h.2.1, h.2.2⟩
          · split
            · exact ⟨h.1, h.2.1, updateColor_range _ _⟩
            · exact h

theorem fadeIter_range (k : ℕ) (s : ColorState) (h : colorInRange s) :
    colorInRange (fadeIter k s) := by
  induction k generalizing s with
  | zero => exact h
  | succ n ih => exact ih (fadeStep 1 s) (fadeStep_range 1 s h)

theorem fadeIter_add (m n : ℕ) (s : ColorState) :
    fadeIter (m + n) s = fadeIter n (fadeIter m s) := by
  induction m generalizing s with
  | zero =>
    rw [Nat.zero_add]
    rfl
  | succ m ih =>
    have hmn : m + 1 + n = (m + n) + 1 := by omega
    rw [hmn]
    show fadeIter (m + n) (fadeStep 1 s) = _
    rw [ih (fadeStep 1 s)]
    rfl

theorem noiseAfter_concat (init : ℚ) (l : List ℚ) (a : ℚ) :
    noiseAfter init (l ++ [a]) = noiseUpdate (noiseAfter init l) a := by
  unfold noiseAfter
  rw [List.foldl_append]
  rfl

theorem fadeApplied_prevAmps (cfg : Config) (s : PipelineState) :
    (if cfg.fade then applyFade s else s).prevAmps = s.prevAmps := by
  split <;> rfl

theorem fadeApplied_normAmps (cfg : Config) (s : PipelineState) :
    (if cfg.fade then applyFade s else s).normAmps = s.normAmps := by
  split <;> rfl

theorem fadeApplied_noiseThresh (cfg : Config) (s : PipelineState) :
    (if cfg.fade then applyFade s else s).noiseThresh = s.noiseThresh := by
  split <;> rfl

theorem callback_cases (cfg : Config) (indata spectrum : List ℚ)
    (s s' : PipelineState) (out : BlockOutput)
    (hc : callback cfg indata spectrum s = some (s', out)) :
    (indata.any (fun x => x != 0) = false ∧
      s' = (if cfg.fade then applyFade s else s) ∧
      out = ⟨[], true, none⟩) ∨
    (indata.any (fun x => x != 0) = true ∧
      ∃ amp0, bandSum spectrum indata.length cfg.samplerate cfg.low cfg.high = some amp0 ∧
        (s', out) = processBlock cfg (if cfg.fade then applyFade s else s) amp0) := by
  unfold callback callbackCore at hc
  cases hany : indata.any (fun x => x != 0) with
  | false =>
    rw [hany] at hc
    simp only [Bool.false_eq_true, if_false] at hc
    left
    obtain ⟨h1, h2⟩ := Prod.mk.injEq .. ▸ Option.some.inj hc
    exact ⟨rfl, h1.symm, h2.symm⟩
  | true =>
    rw [hany] at hc
    simp only [if_true] at hc
    right
    refine ⟨rfl, ?_⟩
    cases hbs : bandSum spectrum indata.length cfg.samplerate cfg.low cfg.high with
    | none =>
      rw [hbs] at hc
      exact absurd hc (by simp)
    | some amp0 =>
      rw [hbs] at hc
      exact ⟨amp0, rfl, (Option.some.inj hc).symm⟩

theorem processBlock_prevAmps (cfg : Config) (s0 : PipelineState) (amp0 : ℚ) :
    (processBlock cfg s0 amp0).1.prevAmps =
      dequeAppend cfg.capPrev s0.prevAmps
        (adjustAmp (noiseUpdate s0.noiseThresh amp0) amp0) := rfl

theorem weightedAvg_single_zero : weightedAvg [0] = 0 := by decide

theorem setLights_zero (pin : ℕ) : setLights pin 0 = some (pin, 0) := by
  unfold setLights
  rw [if_neg (by norm_num : ¬((0 : ℚ) > 255))]

theorem processBlock_var_lt (cfg : Config) (s0 : PipelineState) (amp0 : ℚ)
    (hvar : listVar (processBlock cfg s0 amp0).1.prevAmps < 1) :
    (processBlock cfg s0 amp0).1.normAmps = [0] ∧
    (processBlock cfg s0 amp0).2.lightCalls =
      [(RED_PIN, 0), (GREEN_PIN, 0), (BLUE_PIN, 0)] := by
  rw [processBlock_prevAmps] at hvar
  constructor
  · show (if listVar (dequeAppend cfg.capPrev s0.prevAmps
        (adjustAmp (noiseUpdate s0.noiseThresh amp0) amp0)) < 1 then ([0] : List ℚ)
      else dequeAppend cfg.capNorm s0.normAmps _) = [0]
    rw [if_pos hvar]
  · show ([setLights RED_PIN ((s0.r : ℚ) * weightedAvg (if listVar (dequeAppend cfg.capPrev
        s0.prevAmps (adjustAmp (noiseUpdate s0.noiseThresh amp0) amp0)) < 1 then ([0] : List ℚ)
          else dequeAppend cfg.capNorm s0.normAmps _)),
      setLights GREEN_PIN ((s0.g : ℚ) * weightedAvg _),
      setLights BLUE_PIN ((s0.b : ℚ) * weightedAvg _)].filterMap id) = _
    rw [if_pos hvar, weightedAvg_single_zero, mul_zero, mul_zero, mul_zero,
      setLights_zero, setLights_zero, setLights_zero]
    rfl

theorem dequeAppend_length (cap : ℕ) (l : List ℚ) (x : ℚ) :
    (dequeAppend cap l x).length = min (l.length + 1) cap := by
  unfold dequeAppend
  rw [List.length_drop, List.length_append]
  simp only [List.length_cons, List.length_nil]
  omega

theorem getD_take_of_lt (l : List ℚ) (m i : ℕ) (h : i < m) :
    (l.take m).getD i 0 = l.getD i 0 := by
  simp [List.getD, List.getElem?_take, h]

theorem applyFade_setGain (gv : ℚ) (s : PipelineState) :
    applyFade (setGain gv s) = setGain gv (applyFade s) := rfl

theorem processBlock_setGain (cfg : Config) (gv : ℚ) (s0 : PipelineState) (amp0 : ℚ) :
    processBlock cfg (setGain gv s0) amp0 =
      (setGain gv (processBlock cfg s0 amp0).1, (processBlock cfg s0 amp0).2) := rfl

theorem callbackCore_setGain (cfg : Config) (indata spectrum : List ℚ)
    (gv : ℚ) (s0 : PipelineState) :
    callbackCore cfg indata spectrum (setGain gv s0) =
      (callbackCore cfg indata spectrum s0).map (fun p => (setGain gv p.1, p.2)) := by
  unfold callbackCore
  cases hany : indata.any (fun x => x != 0) with
  | false => simp [hany]
  | true =>
    simp only [hany, if_true]
    cases hbs : bandSum spectrum indata.length cfg.samplerate cfg.low cfg.high with
    | none => simp
    | some amp0 => simp [processBlock_setGain]

theorem callback_setGain (cfg : Config) (indata spectrum : List ℚ)
    (gv : ℚ) (s : PipelineState) :
    callback cfg indata spectrum (setGain gv s) =
      (callback cfg indata spectrum s).map (fun p => (setGain gv p.1, p.2)) := by
  unfold callback
  have hfa : (if cfg.fade then applyFade (setGain gv s) else setGain gv s)
      = setGain gv (if cfg.fade then applyFade s else s) := by
    split <;> rfl
  rw [hfa, callbackCore_setGain]

theorem runBlocks_setGain (cfg : Config) (blocks : List (List ℚ × List ℚ))
    (gv : ℚ) (s : PipelineState) :
    runBlocks cfg blocks (setGain gv s) =
      (runBlocks cfg blocks s).map (fun p => (setGain gv p.1, p.2)) := by
  induction blocks generalizing s with
  | nil => rfl
  | cons blk rest ih =>
    unfold runBlocks
    rw [callback_setGain]
    cases hcb : callback cfg blk.1 blk.2 s with
    | none => rfl
    | some p =>
      obtain ⟨s1, o1⟩ := p
      simp only [Option.map_some']
      rw [ih s1]
      cases hrb : runBlocks cfg rest s1 with
      | none => rfl
      | some q => rfl

theorem noiseAfter_le (init : ℚ) (l ext : List ℚ) :
    noiseAfter init (l ++ ext) ≤ noiseAfter init l := by
  induction ext generalizing l with
  | nil => simp [noiseAfter]
  | cons a tl ih =>
    have h1 : l ++ a :: tl = (l ++ [a]) ++ tl := by simp
    rw [h1]
    refine le_trans (ih (l ++ [a])) ?_
    rw [noiseAfter_concat]
    exact min_le_right _ _

/-! ## Claims -/

set_option maxRecDepth 10000 in
/-- Claim C5: starting from `(255, 0, 0)`, iterating the fade transition with
step 1 returns the colour state to exactly `(255, 0, 0)` after exactly
`255 * 6 = 1530` advances, and every intermediate channel value stays in
`[0, 255]`. -/
theorem c5_fade_cycle :
    fadeIter 1530 ⟨255, 0, 0⟩ = ⟨255, 0, 0⟩ ∧
    ∀ k, k ≤ 1530 → colorInRange (fadeIter k ⟨255, 0, 0⟩) := by
  constructor
  · have h1 : fadeIter 255 ⟨255, 0, 0⟩ = ⟨255, 255, 0⟩ := by decide
    have h2 : fadeIter 255 ⟨255, 255, 0⟩ = ⟨0, 255, 0⟩ := by decide
    have h3 : fadeIter 255 ⟨0, 255, 0⟩ = ⟨0, 255, 255⟩ := by decide
    have h4 : fadeIter 255 ⟨0, 255, 255⟩ = ⟨0, 0, 255⟩ := by decide
    have h5 : fadeIter 255 ⟨0, 0, 255⟩ = ⟨255, 0, 255⟩ := by decide
    have h6 : fadeIter 255 ⟨255, 0, 255⟩ = ⟨255, 0, 0⟩ := by decide
    have e1 : fadeIter 1530 ⟨255, 0, 0⟩ = fadeIter 1275 (fadeIter 255 ⟨255, 0, 0⟩) := by
      rw [← fadeIter_add]
    have e2 : fadeIter 1275 ⟨255, 255, 0⟩ = fadeIter 1020 (fadeIter 255 ⟨255, 255, 0⟩) := by
      rw [← fadeIter_add]
    have e3 : fadeIter 1020 ⟨0, 255, 0⟩ = fadeIter 765 (fadeIter 255 ⟨0, 255, 0⟩) := by
      rw [← fadeIter_add]
    have e4 : fadeIter 765 ⟨0, 255, 255⟩ = fadeIter 510 (fadeIter 255 ⟨0, 255, 255⟩) := by
      rw [← fadeIter_add]
    have e5 : fadeIter 510 ⟨0, 0, 255⟩ = fadeIter 255 (fadeIter 255 ⟨0, 0, 255⟩) := by
      rw [← fadeIter_add]
    rw [e1, h1, e2, h2, e3, h3, e4, h4, e5, h5, h6]
  · intro k _
    refine fadeIter_range k _ ?_
    unfold colorInRange chanInRange
    dsimp only
    omega

/-- Witness for C5: the theorem applied at the concrete advance count 100. -/
theorem c5_fade_cycle_witness :
    fadeIter 1530 ⟨255, 0, 0⟩ = ⟨255, 0, 0⟩ ∧ colorInRange (fadeIter 100 ⟨255, 0, 0⟩) :=
  ⟨c5_fade_cycle.1, c5_fade_cycle.2 100 (by norm_num)⟩

/-- Claim C6: a computed duty greater than 255 results in no actuator call for
that channel (`setLights` returns without forwarding anything); a duty at most
255 is forwarded unchanged. -/
theorem c6_duty_guard (pin : ℕ) (duty : ℚ) :
    (255 < duty → setLights pin duty = none) ∧
    (duty ≤ 255 → setLights pin duty = some (pin, duty)) := by
  constructor
  · intro h
    unfold setLights
    rw [if_pos h]
  · intro h
    unfold setLights
    rw [if_neg (not_lt.mpr h)]

/-- Witness for C6: a duty of 300 is dropped, a duty of 100 is forwarded. -/
theorem c6_duty_guard_witness :
    setLights 16 300 = none ∧ setLights 20 100 = some (20, 100) :=
  ⟨(c6_duty_guard 16 300).1 (by norm_num), (c6_duty_guard 20 100).2 (by norm_num)⟩

/-- Claim C7: the noise floor is non-increasing over any sequence of processed
amplitudes (after each block it is the minimum of its previous value and the
block's raw amplitude), and the adjusted amplitude
`max(1e-9, amp - noise floor)` is always at least `1e-9`. -/
theorem c7_noise_floor (init : ℚ) (amps ext : List ℚ) (noise amp : ℚ) :
    noiseAfter init (amps ++ ext) ≤ noiseAfter init amps ∧
    noiseUpdate noise amp = min amp noise ∧
    (1 / 1000000000 : ℚ) ≤ adjustAmp (noiseUpdate noise amp) amp :=
  ⟨noiseAfter_le init amps ext, rfl, le_max_left _ _⟩

/-- Claim C4: with margin 10 and a non-empty history, `normalize` equals the
clamped percentile formula with `val_max = percentile(history, 90)` and
`val_min = percentile(history, 20)`, `curved_norm` equals
`clamp((normalized + 0.1)^6, 0, 1)`, and both values lie in `[0, 1]`
regardless of input magnitude. -/
theorem c4_normalization (val : ℚ) (history : List ℚ) (hne : history ≠ []) :
    normalize val history 10 =
      bounded ((val - percentile history 20) /
        max (1 / 1000000000) (percentile history 90 - percentile history 20)) 0 1 ∧
    curved_norm val history 10 =
      bounded ((normalize val history 10 + 1 / 10) ^ 6) 0 1 ∧
    0 ≤ normalize val history 10 ∧ normalize val history 10 ≤ 1 ∧
    0 ≤ curved_norm val history 10 ∧ curved_norm val history 10 ≤ 1 := by
  refine ⟨?_, rfl, (bounded_zero_one _).1, (bounded_zero_one _).2,
    (bounded_zero_one _).1, (bounded_zero_one _).2⟩
  unfold normalize
  norm_num

/-- Witness for C4: the theorem applied at `val = 5`, `history = [1, 2, 3]`;
the normalized value evaluates to 1. -/
theorem c4_normalization_witness :
    normalize 5 [1, 2, 3] 10 = 1 ∧
    0 ≤ normalize 5 [1, 2, 3] 10 ∧ normalize 5 [1, 2, 3] 10 ≤ 1 ∧
    0 ≤ curved_norm 5 [1, 2, 3] 10 ∧ curved_norm 5 [1, 2, 3] 10 ≤ 1 :=
  ⟨by decide, (c4_normalization 5 [1, 2, 3] (by simp)).2.2.1,
    (c4_normalization 5 [1, 2, 3] (by simp)).2.2.2.1,
    (c4_normalization 5 [1, 2, 3] (by simp)).2.2.2.2.1,
    (c4_normalization 5 [1, 2, 3] (by simp)).2.2.2.2.2⟩

/-- Claim C1 (refuted, code bug): the reset runs on the normal-quit path, but
on the keyboard-interrupt path `parser.exit` raises `SystemExit` before the
unreachable `reset_lights()` on the next line, and the generic exception
handler exits without any reset at all — the only event on either handler
path is the exit itself, with no PWM call, contrary to the claim that the
reset runs before the process exits. -/
theorem c1_exit_paths :
    runTop normalQuitTail =
      [Event.pwmCall RED_PIN 0, Event.pwmCall GREEN_PIN 0, Event.pwmCall BLUE_PIN 0] ∧
    runTop interruptHandlerBody = [Event.exitMsg "Interrupted by user"] ∧
    ∀ ename emsg, runTop (exceptionHandlerBody ename emsg) =
      [Event.exitMsg (ename ++ ": " ++ emsg)] :=
  ⟨by decide, by decide, fun ename emsg => rfl⟩

/-- Counterexample to Claim C9 as stated: with block-duration 20000 ms the
configured capacity `int(10000/20000)` is 0, and the seeded deque
`deque([1e-9], maxlen=0)` is empty before the first block, so the history
does not "always contain at least one seed value". -/
theorem c9_counterexample :
    capPrevOf 20000 = 0 ∧ prev_amps_init 20000 = [] := by
  constructor
  · decide
  · decide

/-- Claim C9, amended: provided the configured capacity is at least 1 (block
duration at most the 10000 ms normalization window), the seeded history is
`[1e-9]` at initialization, and across every handler invocation the history
length stays between 1 and the capacity (the handler only ever appends with
oldest-evicted, and never clears). -/
theorem c9_history_invariant (cfg : Config) (indata spectrum : List ℚ)
    (s s' : PipelineState) (out : BlockOutput) (bd : ℚ)
    (hcap : 1 ≤ cfg.capPrev) (hinit : 1 ≤ capPrevOf bd)
    (hlen1 : 1 ≤ s.prevAmps.length) (hlen2 : s.prevAmps.length ≤ cfg.capPrev)
    (hc : callback cfg indata spectrum s = some (s', out)) :
    prev_amps_init bd = [1 / 1000000000] ∧
    1 ≤ s'.prevAmps.length ∧ s'.prevAmps.length ≤ cfg.capPrev := by
  refine ⟨?_, ?_⟩
  · unfold prev_amps_init dequeInit
    simp [Nat.sub_eq_zero_of_le hinit]
  · rcases callback_cases cfg indata spectrum s s' out hc with
      ⟨_, hs, _⟩ | ⟨_, amp0, _, heq⟩
    · rw [hs, fadeApplied_prevAmps]
      exact ⟨hlen1, hlen2⟩
    · have hs' : s'.prevAmps = (processBlock cfg
          (if cfg.fade then applyFade s else s) amp0).1.prevAmps :=
        congrArg (fun p => p.1.prevAmps) heq
      rw [hs', processBlock_prevAmps, dequeAppend_length, fadeApplied_prevAmps]
      omega

/-- Witness for C9's amended theorem: a concrete silent block at capacity 400
with a singleton history. -/
theorem c9_history_invariant_witness :
    prev_amps_init 25 = [1 / 1000000000] ∧
    1 ≤ (⟨255, 0, 0, [1 / 1000000000], [], 1000000000, 10⟩ :
      PipelineState).prevAmps.length ∧
    (⟨255, 0, 0, [1 / 1000000000], [], 1000000000, 10⟩ :
      PipelineState).prevAmps.length ≤ 400 :=
  c9_history_invariant ⟨false, 0, 200, 44100, 400, 12⟩ [0, 0] []
    ⟨255, 0, 0, [1 / 1000000000], [], 1000000000, 10⟩
    ⟨255, 0, 0, [1 / 1000000000], [], 1000000000, 10⟩ ⟨[], true, none⟩ 25
    (by norm_num) (by decide) (by decide) (by decide) (by decide)

/-- Counterexample to Claim C2 as stated, in both failure modes.  First, an
8-sample block at samplerate 8 with the valid range `[0, 4)` (and
`4 = samplerate/2`): every first-half bin (indices 0..3) is selected, but the
doubly-truncated spectrum keeps only `(8/2 + 1)/2 = 2` entries, so the fancy
indexing raises `IndexError` (`none`) instead of producing the claimed sum 4.
Second, a one-sample block (rfft length `1/2 + 1 = 1`) with the same valid
range: the doubly-truncated spectrum `spectrum[:int(1/2)]` is a zero-size
array and `np.max` on it raises `ValueError` before any amplitude is
computed.  So the computation can fail for valid ranges with
`high ≤ samplerate/2`, contrary to the claim. -/
theorem c2_counterexample :
    (0 : ℚ) < 4 ∧ (4 : ℚ) ≤ 8 / 2 ∧
    bandSum [1, 1, 1, 1, 1] 8 8 0 4 = none ∧
    claimedBandSum [1, 1, 1, 1, 1] 8 8 0 4 = 4 ∧
    bandSum [5] 1 8 0 4 = none :=
  ⟨by norm_num, by norm_num, by decide, by decide, by decide⟩

/-- Claim C2, amended: for a non-silent block of `n` samples whose magnitude
spectrum has the rfft length `⌊n/2⌋ + 1`, provided the block has at least two
samples (so the doubly-truncated spectrum is non-empty and the peak-frequency
`np.max` on line 169 does not raise) and every selected bin index is below
the doubly-truncated spectrum length `(⌊n/2⌋ + 1)/2`, the per-block amplitude
equals the sum of the magnitudes over all first-half bins whose frequency
lies in `[low, high)`; outside these provisos the computation raises instead
of producing an amplitude (see the counterexample for both modes). -/
theorem c2_band_amplitude (spectrum : List ℚ) (n : ℕ) (samplerate low high : ℚ)
    (hn : 2 ≤ n) (hspec : spectrum.length = n / 2 + 1)
    (hall : ∀ i ∈ bandIndices n samplerate low high, i < (n / 2 + 1) / 2) :
    bandSum spectrum n samplerate low high =
      some (claimedBandSum spectrum n samplerate low high) := by
  simp only [bandSum]
  have hlen : (spectrum.take ((n / 2 + 1) / 2)).length = (n / 2 + 1) / 2 := by
    rw [List.length_take, hspec]
    omega
  have hguard : (bandIndices n samplerate low high).all
      (fun i => decide (i < (spectrum.take ((n / 2 + 1) / 2)).length)) = true := by
    rw [List.all_eq_true]
    intro i hi
    simp only [decide_eq_true_eq]
    rw [hlen]
    exact hall i hi
  have hempty : (spectrum.take ((n / 2 + 1) / 2)).isEmpty = false := by
    cases hsp : spectrum.take ((n / 2 + 1) / 2) with
    | nil =>
      rw [hsp] at hlen
      simp only [List.length_nil] at hlen
      omega
    | cons a l => rfl
  rw [if_pos hguard, hempty]
  simp only [Bool.false_eq_true, if_false]
  unfold claimedBandSum
  congr 1
  congr 1
  refine List.map_congr_left ?_
  intro i hi
  exact getD_take_of_lt spectrum _ i (hall i hi)

/-- Witness for C2's amended theorem: a 4-sample block at samplerate 4 with
range `[0, 1)`; only bin 0 is selected and the sum is its magnitude. -/
theorem c2_band_amplitude_witness :
    bandSum [2, 3, 7] 4 4 0 1 = some (claimedBandSum [2, 3, 7] 4 4 0 1) :=
  c2_band_amplitude [2, 3, 7] 4 4 0 1 (by norm_num) (by decide) (by decide)

/-- Claim C3: on every processed (non-silent) block on which the standard
deviation of the post-append band-energy history is below 1 — equivalently,
since `std = √variance`, its variance is below 1 — the brightness history is
cleared and reseeded with a single 0, and the brightness emitted for the
block is exactly 0: all three PWM calls carry duty 0. -/
theorem c3_silence_reset (cfg : Config) (indata spectrum : List ℚ)
    (s s' : PipelineState) (out : BlockOutput)
    (hc : callback cfg indata spectrum s = some (s', out))
    (hns : indata.any (fun x => x != 0) = true)
    (hvar : listVar s'.prevAmps < 1) :
    s'.normAmps = [0] ∧ weightedAvg s'.normAmps = 0 ∧
    out.lightCalls = [(RED_PIN, 0), (GREEN_PIN, 0), (BLUE_PIN, 0)] := by
  rcases callback_cases cfg indata spectrum s s' out hc with
    ⟨hf, _, _⟩ | ⟨_, amp0, _, heq⟩
  · rw [hf] at hns
    cases hns
  · have hs' : s' = (processBlock cfg (if cfg.fade then applyFade s else s) amp0).1 :=
      congrArg Prod.fst heq
    have hout : out = (processBlock cfg (if cfg.fade then applyFade s else s) amp0).2 :=
      congrArg Prod.snd heq
    rw [hs'] at hvar
    obtain ⟨h1, h2⟩ := processBlock_var_lt cfg _ amp0 hvar
    rw [hs', hout, h1, h2]
    exact ⟨rfl, weightedAvg_single_zero, rfl⟩

/-- Witness for C3: a concrete non-silent block whose post-append history
`[1e-9, 1e-9]` has variance 0. -/
theorem c3_silence_reset_witness :
    (⟨255, 0, 0, [1 / 1000000000, 1 / 1000000000], [0], 5, 10⟩ :
      PipelineState).normAmps = [0] ∧
    weightedAvg (⟨255, 0, 0, [1 / 1000000000, 1 / 1000000000], [0], 5, 10⟩ :
      PipelineState).normAmps = 0 ∧
    (⟨[(16, 0), (20, 0), (21, 0)], false, some 0⟩ :
      BlockOutput).lightCalls = [(RED_PIN, 0), (GREEN_PIN, 0), (BLUE_PIN, 0)] :=
  c3_silence_reset ⟨false, 0, 1, 8, 4, 4⟩ [1, 0, 0, 0] [5, 3, 2]
    ⟨255, 0, 0, [1 / 1000000000], [], 1000000000, 10⟩
    ⟨255, 0, 0, [1 / 1000000000, 1 / 1000000000], [0], 5, 10⟩
    ⟨[(16, 0), (20, 0), (21, 0)], false, some 0⟩
    (by decide) (by decide) (by decide)

/-- Claim C8: a block whose samples are all zero takes the `'no input'`
branch: the handler prints `'no input'`, performs no spectral processing
(noise threshold untouched, no dash bar), appends to neither history, and
makes no actuator call. -/
theorem c8_silent_block (cfg : Config) (indata spectrum : List ℚ)
    (s : PipelineState) (hz : indata.all (fun x => x == 0) = true) :
    ∃ s', callback cfg indata spectrum s = some (s', ⟨[], true, none⟩) ∧
      s'.prevAmps = s.prevAmps ∧ s'.normAmps = s.normAmps ∧
      s'.noiseThresh = s.noiseThresh := by
  have hany : indata.any (fun x => x != 0) = false := by
    rw [List.any_eq_false]
    intro x hx
    rw [List.all_eq_true] at hz
    have hx0 := hz x hx
    simp only [beq_iff_eq] at hx0
    simp [hx0]
  refine ⟨if cfg.fade then applyFade s else s, ?_, fadeApplied_prevAmps cfg s,
    fadeApplied_normAmps cfg s, fadeApplied_noiseThresh cfg s⟩
  unfold callback callbackCore
  rw [hany]
  simp

/-- Witness for C8: a concrete all-zero two-sample block in fade mode. -/
theorem c8_silent_block_witness :
    ∃ s', callback ⟨true, 0, 200, 44100, 400, 12⟩ [0, 0] []
        ⟨255, 0, 0, [1 / 1000000000], [], 1000000000, 10⟩ =
        some (s', ⟨[], true, none⟩) ∧
      s'.prevAmps = [1 / 1000000000] ∧ s'.normAmps = ([] : List ℚ) ∧
      s'.noiseThresh = 1000000000 :=
  c8_silent_block ⟨true, 0, 200, 44100, 400, 12⟩ [0, 0] []
    ⟨255, 0, 0, [1 / 1000000000], [], 1000000000, 10⟩ (by decide)

/-- Claim C10 (implicit): the gain factor has no effect on the program's
outputs: two runs receiving the same sequence of audio blocks but starting
from states differing only in the gain value — whether from the `--gain`
option or any sequence of interactive `'+'`/`'-'` adjustments — produce
identical per-block outputs (the dash bar derived from the amplitude, the
`'no input'` signal, and every PWM actuator call carrying the brightness),
because the per-block pipeline never reads the gain. -/
theorem c10_gain_noninterference (cfg : Config) (blocks : List (List ℚ × List ℚ))
    (s : PipelineState) (g1 g2 : ℚ) :
    runOutputs cfg blocks (setGain g1 s) = runOutputs cfg blocks (setGain g2 s) := by
  unfold runOutputs
  rw [runBlocks_setGain, runBlocks_setGain]
  cases runBlocks cfg blocks s <;> rfl

end Lightshow
